import Mathlib

/-!
# Verification of the `authy` OAuth2 client engine

Shallow embedding of the repository's core logic:

* `src/unnamed/part_000` — package `oauth2`: `AuthorizeURL`, `parseTokenResponse`,
  `Refresh` (the request it builds), plus the Go standard-library helpers they
  rely on (`strconv.ParseInt`, `strings.Split`/`Join`, `url.Values.Encode`,
  `url.QueryEscape`).
* `src/token.go` — the `Token` entity: `Expired`, `IsRefreshable`, `Refresh`,
  and `TokenTransport.RoundTrip`.
* `src/unnamed/part_001` — an older single-file copy of package `authy` whose
  `TokenTransport.RoundTrip` differs from `src/token.go`'s.
* `src/authy.go` — the session orchestrator: `Authorize` (its session writes)
  and `Access`.

Conventions: wall-clock time is an `Int` (seconds); `time.Now()` becomes an
explicit `now` parameter.  Network calls (`http.PostForm` + body parsing) are
replaced by an explicit `exchange : Except Unit OAuth2Token` oracle standing
for the parsed outcome of the HTTP exchange; every code path before/after the
call is translated faithfully.  Go maps with string keys (sessions, header
maps) are association lists with overwrite-on-set semantics.  Go strings in
the translated fragments are ASCII, so a `Char` models a byte.
-/

set_option autoImplicit false
set_option maxRecDepth 8192

namespace Authy

/-! ## Go standard-library fragments -/

/-- Left-to-right scan splitting a character list around each non-overlapping
occurrence of `sep`.  The first argument bounds the recursion depth; each step
consumes at least one character, so `s.length + 1` steps always finish. -/
def splitCharsAux (sep : List Char) : Nat → List Char → List Char → List (List Char)
  | _, [], acc => [acc.reverse]
  | 0, s, acc => [acc.reverse ++ s]
  | fuel + 1, c :: rest, acc =>
    if sep.isPrefixOf (c :: rest) then
      acc.reverse :: splitCharsAux sep fuel ((c :: rest).drop sep.length) []
    else
      splitCharsAux sep fuel rest (c :: acc)

/-- Go `strings.Split(s, sep)`: for a non-empty separator, the pieces of `s`
around each occurrence of `sep` (`Split("", sep) = [""]`); for an empty
separator, one piece per character. -/
def goSplit (s sep : String) : List String :=
  if sep = "" then s.data.map (fun c => String.mk [c])
  else (splitCharsAux sep.data (s.data.length + 1) s.data []).map String.mk

/-- Go `strings.Join(elems, sep)`. -/
def goJoin (elems : List String) (sep : String) : String :=
  match elems with
  | [] => ""
  | e :: rest => rest.foldl (fun acc s => acc ++ sep ++ s) e

/-- Accumulate a base-10 digit string; `none` on an empty string or any
non-digit character (Go's syntax-error case). -/
def digitsVal? : List Char → Option Nat
  | [] => none
  | ds => ds.foldl (fun acc c => do
      let a ← acc
      if c.isDigit then some (a * 10 + (c.toNat - 48)) else none) (some 0)

/-- Go `strconv.ParseInt(s, 10, 32)`: returns the parsed value and an error
flag.  On a syntax error the returned value is `0`; on overflow it is the
maximum-magnitude `int32` of the appropriate sign (Go clamps range errors). -/
def goParseInt32 (s : String) : Int × Bool :=
  match s.data with
  | [] => (0, true)
  | c :: rest =>
    let (neg, ds) :=
      if c = '+' then (false, rest)
      else if c = '-' then (true, rest)
      else (false, c :: rest)
    match digitsVal? ds with
    | none => (0, true)
    | some n =>
      if neg then
        if (n : Int) > 2 ^ 31 then (-(2 ^ 31), true) else (-(n : Int), false)
      else
        if (n : Int) > 2 ^ 31 - 1 then (2 ^ 31 - 1, true) else ((n : Int), false)

/-! ## Package `oauth2` (`src/unnamed/part_000`) -/

/-- Model of `oauth2.Token` (`src/unnamed/part_000` lines 44–50).  `Expires` is an
absolute instant in seconds; Go's zero value has every field empty. -/
structure OAuth2Token where
  AccessToken : String := ""
  Scope : List String := []
  -- the Go field is `Type`, a reserved word in Lean
  TokenType : String := ""
  Expires : Option Int := none
  RefreshToken : String := ""
deriving Repr, DecidableEq

/-- A parsed URL-encoded response body (`url.Values`), one value per key as
the code reads it.  `Get` returns the value of the first matching key, or `""`
when the key is absent. -/
def valuesGet (values : List (String × String)) (k : String) : String :=
  match values.find? (fun p => p.1 == k) with
  | some p => p.2
  | none => ""

/-- Model of `oauth2.parseTokenResponse` (`src/unnamed/part_000` lines 160–188).
The error case is the `invalid_response` `oauth2.Error`; its payload is not
needed here, so it is `Unit`.  Note the `expires_in` branch: the source reads
`if to_add, err := strconv.ParseInt(expires_in, 10, 32); err != nil { ... }`,
so `Expires` is assigned exactly when `ParseInt` FAILS, using the value
`ParseInt` returned alongside the error; a successful parse leaves `Expires`
nil.  This is translated as written. -/
def parseTokenResponse (scopeDelimiter : String) (now : Int)
    (values : List (String × String)) : Except Unit OAuth2Token :=
  let t0 : OAuth2Token :=
    { AccessToken := valuesGet values "access_token"
      TokenType := valuesGet values "token_type"
      RefreshToken := valuesGet values "refresh_token" }
  if t0.AccessToken = "" ∨ t0.TokenType = "" then
    .error ()
  else
    let scope := valuesGet values "scope"
    let t1 := if scope ≠ "" then { t0 with Scope := goSplit scope scopeDelimiter } else t0
    let expiresIn := valuesGet values "expires_in"
    let t2 :=
      if expiresIn ≠ "" then
        let r := goParseInt32 expiresIn
        if r.2 then { t1 with Expires := some (now + r.1) } else t1
      else t1
    .ok t2

/-! ### The authorization URL builder (`src/unnamed/part_000` lines 91–158) -/

/-- Uppercase hexadecimal digit, as Go's `"0123456789ABCDEF"` table. -/
def hexUpper : Nat → Char
  | 0 => '0' | 1 => '1' | 2 => '2' | 3 => '3' | 4 => '4'
  | 5 => '5' | 6 => '6' | 7 => '7' | 8 => '8' | 9 => '9'
  | 10 => 'A' | 11 => 'B' | 12 => 'C' | 13 => 'D' | 14 => 'E'
  | _ => 'F'

/-- One character of Go's `url.QueryEscape` (ASCII fragment): alphanumerics
and `-_.~` pass through, a space becomes `+`, everything else becomes
`%XX` with uppercase hex. -/
def queryEscapeChar (c : Char) : List Char :=
  if c.isAlphanum ∨ c = '-' ∨ c = '_' ∨ c = '.' ∨ c = '~' then [c]
  else if c = ' ' then ['+']
  else ['%', hexUpper (c.toNat / 16), hexUpper (c.toNat % 16)]

/-- Go `url.QueryEscape` on an ASCII string. -/
def goQueryEscape (s : String) : String :=
  String.mk (s.data.foldr (fun c acc => queryEscapeChar c ++ acc) [])

/-- Lexicographic order on character lists by code point — on ASCII strings
this is exactly the byte-wise `s < t` Go's `sort.Strings` uses. -/
def charListLt : List Char → List Char → Bool
  | [], [] => false
  | [], _ :: _ => true
  | _ :: _, [] => false
  | a :: as, b :: bs =>
    if a.toNat < b.toNat then true
    else if b.toNat < a.toNat then false
    else charListLt as bs

/-- Go's `sort.Strings` order. -/
def stringLt (a b : String) : Bool := charListLt a.data b.data

/-- Insert an entry into a key-sorted parameter list. -/
def insertSortedByKey (p : String × String) :
    List (String × String) → List (String × String)
  | [] => [p]
  | q :: rest => if stringLt p.1 q.1 then p :: q :: rest else q :: insertSortedByKey p rest

/-- Sort a parameter list by key, as `url.Values.Encode` does. -/
def sortByKey : List (String × String) → List (String × String)
  | [] => []
  | p :: rest => insertSortedByKey p (sortByKey rest)

/-- Go `url.Values.Encode()`: keys sorted, each `key=value` pair
query-escaped, pairs joined with `&`. -/
def valuesEncode (vals : List (String × String)) : String :=
  goJoin ((sortByKey vals).map (fun p => goQueryEscape p.1 ++ "=" ++ goQueryEscape p.2)) "&"

/-- Go `url.Values.Set(k, v)`: replace any previous binding of `k`. -/
def valuesSetParam (vals : List (String × String)) (k v : String) :
    List (String × String) :=
  (k, v) :: vals.filter (fun p => p.1 != k)

/-- Model of `oauth2.genCallbackURL` (`src/unnamed/part_000` lines 91–104): scheme from
TLS or the `X-HTTPS` header, the inbound request's host, its path with
`/callback` appended. -/
def genCallbackURL (host path : String) (https : Bool) : String :=
  (if https then "https" else "http") ++ "://" ++ host ++ path ++ "/callback"

/-- The per-provider inputs `AuthorizeURL` reads from `provider.ProviderConfig`:
the client key, the requested scopes, the provider's scope delimiter, the CSRF
state, the provider's supported custom-parameter names and the caller-supplied
custom-parameter map. -/
structure ClientConfig where
  key : String := ""
  scope : List String := []
  scopeDelimiter : String := " "
  state : String := ""
  customParameterNames : List String := []
  customParameters : List (String × String) := []
deriving Repr, DecidableEq

/-- The query string `oauth2.AuthorizeURL` appends to the provider's base URL
(`src/unnamed/part_000` lines 134–155): the `authorizationRequest` struct
rendered by `query.Values` — `client_id`, `response_type=code`, and
`redirect_uri`/`scope`/`state` each omitted when empty (`omitempty`) — then
the supported custom parameters applied with `values.Set`, then
`values.Encode()`. -/
def authorizeURLQuery (cfg : ClientConfig) (callbackURL : String) : String :=
  let joinedScope := goJoin cfg.scope cfg.scopeDelimiter
  let base :=
    [("client_id", cfg.key), ("response_type", "code")]
    ++ (if callbackURL = "" then [] else [("redirect_uri", callbackURL)])
    ++ (if joinedScope = "" then [] else [("scope", joinedScope)])
    ++ (if cfg.state = "" then [] else [("state", cfg.state)])
  let withCustom :=
    if cfg.customParameters.length > 0 then
      cfg.customParameterNames.foldl (fun vals name =>
        match cfg.customParameters.find? (fun p => p.1 == name) with
        | some p => valuesSetParam vals name p.2
        | none => vals) base
    else base
  valuesEncode withCustom

/-- The form parameters `oauth2.Refresh` posts to the provider's access-token
URL (`src/unnamed/part_000` lines 232–236), in the sorted order
`url.Values.Encode` emits.  The source fills `refreshTokenRequest` from
`token.RefreshToken`, where `token` is the function's named RETURN value —
still Go's zero value at that point — and never reads `originalToken`; this
is translated as written. -/
def refreshRequestValues (originalToken : OAuth2Token) : List (String × String) :=
  let token : OAuth2Token := {}
  [("grant_type", "refresh_token"), ("refresh_token", token.RefreshToken)]

/-! ## The `Token` entity (`src/token.go`) -/

/-- Model of `authy.Token` (`src/token.go` lines 13–31).  The unexported `authy`
back-reference (used by `Refresh` only to look up the provider) is replaced by
passing the registered provider names to `Refresh` explicitly.  Defaults are
Go's zero values. -/
structure Token where
  Version : Int := 0
  Provider : String := ""
  Value : String := ""
  Scope : List String := []
  -- the Go field is `Type`, a reserved word in Lean
  TokenType : String := ""
  Expires : Option Int := none
  RefreshToken : String := ""
deriving Repr, DecidableEq

/-- Model of `Token.Expired` (`src/token.go` lines 71–76): `time.Now().After(*t.Expires)`
with `time.Now()` passed in as `now`; `After` is strict. -/
def Token.Expired (now : Int) (t : Token) : Bool :=
  match t.Expires with
  | none => false
  | some e => now > e

/-- Model of `Token.IsRefreshable` (`src/token.go` lines 79–81). -/
def Token.IsRefreshable (t : Token) : Bool :=
  t.Version == 2 && t.RefreshToken != ""

/-- Errors `Token.Refresh` can return. -/
inductive RefreshErr where
  /-- Error `"Token cannot be refreshed"` -/
  | refreshNotSupported
  /-- Error `"unknown provider %s"` -/
  | unknownProvider
  /-- an error propagated from `oauth2.Refresh` -/
  | exchangeFailed
deriving Repr, DecidableEq

/-- Model of `Token.Refresh` (`src/token.go` lines 84–107).  The receiver is mutated in
Go; here the post-call token is returned alongside the error.  `providers` is
the key set of `t.authy.providers`, and `exchange` stands for the outcome of
`oauth2.Refresh(providerConfig, t.oauth2())`. -/
def Token.Refresh (providers : List String) (exchange : Except Unit OAuth2Token)
    (t : Token) : Option RefreshErr × Token :=
  if ¬ t.IsRefreshable then (some .refreshNotSupported, t)
  else if ¬ providers.contains t.Provider then (some .unknownProvider, t)
  else if t.Version == 2 then
    match exchange with
    | .error _ => (some .exchangeFailed, t)
    | .ok nt =>
      (none, { t with RefreshToken := nt.RefreshToken, Value := nt.AccessToken,
                      Expires := nt.Expires, TokenType := nt.TokenType })
  else (none, t)

/-! ## The authenticated transport

Two copies of `TokenTransport.RoundTrip` exist in the repository; both are
translated.  A header map is an association list from header name to value
list; `headerSet` is Go's map assignment `h[k] = v` (overwrite).  Each model
returns the pair (headers of the request handed to the underlying transport,
headers of the caller's original request after the call). -/

/-- A Go `http.Header` map. -/
abbrev Headers := List (String × List String)

/-- Go map assignment `h[k] = v`: any previous binding of `k` is replaced. -/
def headerSet (h : Headers) (k : String) (v : List String) : Headers :=
  (k, v) :: h.filter (fun p => p.1 != k)

/-- Model of `TokenTransport.RoundTrip` from `src/token.go` lines 128–145: the request
headers are deep-copied into `newReq.Header`, and when the token is not
expired `newReq.Header["Authorization"]` is set to `Bearer <value>`; the
original request is untouched. -/
def Token.roundTripHeaders (tok : Token) (now : Int) (reqHeaders : Headers) :
    Headers × Headers :=
  let newHeaders := reqHeaders.map (fun p => (p.1, p.2.map id))
  let newHeaders :=
    if ¬ tok.Expired now then headerSet newHeaders "Authorization" ["Bearer " ++ tok.Value]
    else newHeaders
  (newHeaders, reqHeaders)

/-- The `authy.Token` of `src/unnamed/part_001` lines 28–38 (the older
single-file copy of the package). -/
structure PToken where
  Provider : String := ""
  Value : String := ""
  Scope : List String := []
  Expires : Option Int := none
deriving Repr, DecidableEq

/-- Model of `Token.Expired` from `src/unnamed/part_001` lines 40–45. -/
def PToken.Expired (now : Int) (t : PToken) : Bool :=
  match t.Expires with
  | none => false
  | some e => now > e

/-- Model of `TokenTransport.RoundTrip` from `src/unnamed/part_001` lines 60–77: the
headers are deep-copied into `newReq.Header` exactly as in `src/token.go`, but
the `Authorization` assignment is `req.Header["Authorization"] = ...` — it
writes into the CALLER's request, while the copy `newReq` (which is what gets
sent) never receives the header. -/
def PToken.roundTripHeaders (tok : PToken) (now : Int) (reqHeaders : Headers) :
    Headers × Headers :=
  let newHeaders := reqHeaders.map (fun p => (p.1, p.2.map id))
  let origHeaders :=
    if ¬ tok.Expired now then headerSet reqHeaders "Authorization" ["Bearer " ++ tok.Value]
    else reqHeaders
  (newHeaders, origHeaders)

/-! ## The session orchestrator (`src/authy.go`)

The `Session` interface (`Get(key) -> interface{}`, `Set`, `Delete`) stores
arbitrary values; `Access` casts what it reads back to `string` with an
unchecked dynamic type assertion, which panics on `nil` or a non-string.  A
session value is therefore either a string or some non-string value, and a
session is an association list with overwrite-on-set map semantics. -/

/-- A value held in the session: a string, or anything that is not a string
(on which a `.(string)` type assertion panics). -/
inductive SessVal where
  | str (s : String)
  | other
deriving Repr, DecidableEq

/-- A session store. -/
abbrev Session := List (String × SessVal)

/-- Method `Session.Get`: the value bound to `k`; `none` models Go's `nil` result
for an absent key. -/
def sessGet : Session → String → Option SessVal
  | [], _ => none
  | p :: rest, k => if p.1 = k then some p.2 else sessGet rest k

/-- Method `Session.Delete`: remove the binding of `k`. -/
def sessDelete : Session → String → Session
  | [], _ => []
  | p :: rest, k => if p.1 = k then sessDelete rest k else p :: sessDelete rest k

/-- Method `Session.Set`: overwrite any previous binding of `k`. -/
def sessSet (sess : Session) (k : String) (v : SessVal) : Session :=
  (k, v) :: sessDelete sess k

/-- A provider entry as `Access`/`Authorize` consume it: the OAuth version and
optional callback override from `provider.ProviderConfig`, and the configured
scope list (`providerConfig.Scope`). -/
structure ProviderConf where
  oauthVersion : Int := 2
  callback : String := ""
  scope : List String := []
deriving Repr, DecidableEq

/-- The parts of `Authy` that `Access`/`Authorize` read: the engine-wide
callback and the provider map (an association list keyed by provider name). -/
structure AuthyConf where
  callback : String := ""
  providers : List (String × ProviderConf) := []
deriving Repr, DecidableEq

/-- Provider lookup `a.providers[providerName]`. -/
def AuthyConf.getProvider (a : AuthyConf) (name : String) : Option ProviderConf :=
  (a.providers.find? (fun p => p.1 == name)).map (fun p => p.2)

/-- The inbound callback request, reduced to the query parameters `Access`
reads; `""` is what `r.URL.Query().Get` returns for an absent parameter. -/
structure Req where
  state : String := ""
  code : String := ""
deriving Repr, DecidableEq

/-- The errors `Access` can return. -/
inductive AccessError where
  /-- Error `"unknown provider %s"` -/
  | unknownProvider
  /-- Error `"Not Implemented"` (non-OAuth2 providers) -/
  | notImplemented
  /-- Error `"state token is not set in session, possible CSRF"` -/
  | csrfStateMissing
  /-- Error `"invalid state param provided, possible CSRF"` -/
  | csrfMismatch
  /-- Error `"code was not found in the query parameters"` -/
  | missingCode
  /-- an error propagated from `oauth2.GetAccessToken` -/
  | exchangeFailed
deriving Repr, DecidableEq

/-- The observable outcome of one `Access` call: a returned token, redirect
URL and post-call session; an error and the post-call session; or a runtime
panic from an unchecked type assertion. -/
inductive AccessOutcome where
  | ok (token : Token) (redirect : String) (sess : Session)
  | err (e : AccessError) (sess : Session)
  | panicked
deriving Repr, DecidableEq

/-- Model of `authy.tokenFromOAuth2` (`src/token.go` lines 33–44), minus the `authy`
back-reference. -/
def tokenFromOAuth2 (providerName : String) (t : OAuth2Token) : Token :=
  { Version := 2
    Provider := providerName
    Value := t.AccessToken
    Scope := t.Scope
    TokenType := t.TokenType
    Expires := t.Expires
    RefreshToken := t.RefreshToken }

/-- Model of `Authy.Access` (`src/authy.go` lines 80–131).  `exchange` stands for the
outcome of `oauth2.GetAccessToken(providerConfig, r)`.  The two `.(string)`
type assertions are translated as written: asserting on a non-string session
value — including the `nil` returned for an absent scope entry — panics. -/
def Access (a : AuthyConf) (providerName : String) (sess : Session) (r : Req)
    (exchange : Except Unit OAuth2Token) : AccessOutcome :=
  match a.getProvider providerName with
  | none => .err .unknownProvider sess
  | some pc =>
    if pc.oauthVersion == 2 then
      match sessGet sess ("authy." ++ providerName ++ ".state") with
      | none => .err .csrfStateMissing sess
      | some .other => .panicked
      | some (.str stateStr) =>
        if r.state != stateStr then .err .csrfMismatch sess
        else
          match sessGet sess ("authy." ++ stateStr ++ ".scope") with
          | none => .panicked
          | some .other => .panicked
          | some (.str scopeStr) =>
            let originalScope := goSplit scopeStr ","
            if r.code == "" then .err .missingCode sess
            else
              match exchange with
              | .error _ => .err .exchangeFailed sess
              | .ok tok =>
                let sess1 := sessDelete sess ("authy." ++ providerName ++ ".state")
                let sess2 := sessDelete sess1 ("authy." ++ stateStr ++ ".scope")
                let redirect := if pc.callback != "" then pc.callback else a.callback
                let tok2 := if tok.Scope.length == 0 then { tok with Scope := originalScope }
                            else tok
                .ok (tokenFromOAuth2 providerName tok2) redirect sess2
    else .err .notImplemented sess

/-- The session writes `Authy.Authorize` performs (`src/authy.go` lines
61–62): the generated CSRF `state` (a parameter here, since its generation is
random) and the comma-joined configured scope. -/
def authorizeSessionWrites (providerName : String) (pc : ProviderConf)
    (state : String) (sess : Session) : Session :=
  sessSet (sessSet sess ("authy." ++ providerName ++ ".state") (.str state))
    ("authy." ++ state ++ ".scope") (.str (goJoin pc.scope ","))

/-- The scope of the token an `Access` outcome returned, when it succeeded. -/
def AccessOutcome.scopeOf : AccessOutcome → Option (List String)
  | .ok t _ _ => some t.Scope
  | _ => none

/-! ### Session-store laws used by several proofs -/

theorem sessGet_sessDelete (sess : Session) (k k' : String) :
    sessGet (sessDelete sess k) k' = if k' = k then none else sessGet sess k' := by
  induction sess with
  | nil => simp [sessGet, sessDelete]
  | cons p rest ih =>
    by_cases hp : p.1 = k
    · by_cases hk : k' = k
      · subst hk
        simp [sessDelete, hp, ih]
      · have hp' : p.1 ≠ k' := fun hpk => hk (by rw [← hpk, hp])
        have hk' : k ≠ k' := fun h => hk h.symm
        simp [sessDelete, sessGet, hp, hp', hk, hk', ih]
    · by_cases hpk : p.1 = k'
      · have hk : k' ≠ k := fun h => hp (by rw [hpk, h])
        simp [sessDelete, sessGet, hp, hpk, hk]
      · simp [sessDelete, sessGet, hp, hpk, ih]

theorem sessGet_sessSet (sess : Session) (k k' : String) (v : SessVal) :
    sessGet (sessSet sess k v) k' = if k' = k then some v else sessGet sess k' := by
  by_cases hk : k' = k
  · simp [sessSet, sessGet, hk]
  · have hk' : k ≠ k' := fun h => hk h.symm
    simp [sessSet, sessGet, hk', hk, sessGet_sessDelete]

/-- The two session keys in play can never collide: one ends in `.state`, the
other in `.scope`, whatever `x` and `y` are. -/
theorem stateKey_ne_scopeKey (x y : String) :
    "authy." ++ x ++ ".state" ≠ "authy." ++ y ++ ".scope" := by
  intro h
  have e1 : ("authy." ++ x ++ ".state").data.reverse[1]? = some 't' := by
    rw [String.data_append, List.reverse_append]
    rw [show ".state".data.reverse = ['e', 't', 'a', 't', 's', '.'] from by decide]
    rfl
  have e2 : ("authy." ++ y ++ ".scope").data.reverse[1]? = some 'p' := by
    rw [String.data_append, List.reverse_append]
    rw [show ".scope".data.reverse = ['e', 'p', 'o', 'c', 's', '.'] from by decide]
    rfl
  rw [h, e2] at e1
  cases e1

end Authy

open Authy

/-- C1: the token-response parser is claimed to set expiry to `now + n` when
`expires_in` parses as an integer `n`, and to leave it unset when it does not
parse.  Evaluating `parseTokenResponse` shows the code does the opposite: a
parseable `expires_in=3600` leaves `Expires` unset, and an unparseable
`expires_in=nope` sets `Expires = now + 0` (no error is raised in either
case). -/
theorem parseTokenResponse_expiresIn_inverted :
    (parseTokenResponse " " 1000
        [("access_token", "abc"), ("token_type", "bearer"), ("expires_in", "3600")]
      = .ok { AccessToken := "abc", TokenType := "bearer", Expires := none })
    ∧ (parseTokenResponse " " 1000
        [("access_token", "abc"), ("token_type", "bearer"), ("expires_in", "nope")]
      = .ok { AccessToken := "abc", TokenType := "bearer", Expires := some 1000 }) := by
  exact ⟨rfl, rfl⟩

/-- C2: the refresh request is claimed to carry `refresh_token` equal to the
refresh token of the token being refreshed.  Evaluating the request builder
on a token whose refresh token is `"r1"` shows the posted `refresh_token`
parameter is `""` (the zero-valued named return is read instead of
`originalToken`). -/
theorem refreshRequest_drops_refresh_token :
    refreshRequestValues { AccessToken := "tok", RefreshToken := "r1" }
      = [("grant_type", "refresh_token"), ("refresh_token", "")]
    ∧ ("" : String) ≠ "r1" := by
  constructor <;> decide

/-- C5: refreshing a token that is not refreshable (not both version 2 and a
non-empty refresh token) fails with the refresh-not-supported error and
returns the token with every field unchanged, whatever the provider registry
and exchange outcome. -/
theorem refresh_not_refreshable_fails_unchanged
    (providers : List String) (exchange : Except Unit OAuth2Token) (t : Token)
    (h : t.IsRefreshable = false) :
    t.Refresh providers exchange = (some .refreshNotSupported, t) := by
  simp [Token.Refresh, h]

/-- Witness for C5: a concrete version-1 token with a refresh token is not
refreshable, and refreshing it fails with `refreshNotSupported`, unchanged. -/
theorem refresh_not_refreshable_fails_unchanged_witness :
    Token.Refresh ["github"] (.ok { AccessToken := "new" })
        { Version := 1, Provider := "github", Value := "v", RefreshToken := "r" }
      = (some .refreshNotSupported,
         { Version := 1, Provider := "github", Value := "v", RefreshToken := "r" }) :=
  refresh_not_refreshable_fails_unchanged ["github"] (.ok { AccessToken := "new" })
    { Version := 1, Provider := "github", Value := "v", RefreshToken := "r" } (by decide)

/-- C6: the claim says `RoundTrip` sets `Authorization: Bearer <value>` on a
deep-copied clone and leaves the caller's request unmodified.  The copy of
`RoundTrip` in `src/token.go` does exactly that (second conjunct), but the
copy in `src/unnamed/part_001` evaluates, on a non-expired token and a request
with an empty header map, to: the request sent to the underlying transport has
NO headers at all, while the caller's original request gains the
`Authorization` header (first conjunct) — the assignment targets `req` instead
of `newReq`, contradicting the function's own "make a copy" comments. -/
theorem roundTrip_part001_mutates_original :
    (PToken.roundTripHeaders { Value := "v", Expires := none } 0 []
      = ([], [("Authorization", ["Bearer v"])]))
    ∧ (Token.roundTripHeaders { Version := 2, Value := "v", Expires := none } 0 []
      = ([("Authorization", ["Bearer v"])], [])) := by
  constructor <;> decide

/-- C7 (counterexample): the claim says a token whose `expiresAt` equals the
current instant is treated as expired, but `Expired` uses the strict
`time.Now().After`: at `now = 5` a token expiring at `5` is NOT expired. -/
theorem expired_at_boundary_is_false :
    Token.Expired 5 { Version := 2, Expires := some 5 } = false := by
  decide

/-- C7 (amended): `Expired()` is true iff `expiresAt` is set and strictly in
the past; a token with no `expiresAt` is never expired; and at the boundary a
token whose `expiresAt` equals the current instant is treated as NOT
expired. -/
theorem expired_iff_strictly_past (now : Int) (t : Token) :
    (t.Expired now = true ↔ ∃ e, t.Expires = some e ∧ e < now)
    ∧ (t.Expires = none → t.Expired now = false)
    ∧ (t.Expires = some now → t.Expired now = false) := by
  refine ⟨?_, ?_, ?_⟩
  · cases he : t.Expires with
    | none => simp [Token.Expired, he]
    | some e => simp [Token.Expired, he]
  · intro he; simp [Token.Expired, he]
  · intro he; simp [Token.Expired, he]

/-- Witness for C7: a token expiring at `3` is expired at `7`, and a token
with no expiry is not expired at `7`. -/
theorem expired_iff_strictly_past_witness :
    Token.Expired 7 { Version := 2, Expires := some 3 } = true
    ∧ Token.Expired 7 { Version := 2, Expires := none } = false :=
  ⟨(expired_iff_strictly_past 7 { Version := 2, Expires := some 3 }).1.mpr
      ⟨3, rfl, by decide⟩,
   (expired_iff_strictly_past 7 { Version := 2, Expires := none }).2.1 rfl⟩

/-- C3: when a state `S` is stored in the session under the provider's state
key and the request's `state` query parameter differs from `S`, `Access`
fails with the CSRF-mismatch error and returns with the session exactly as it
was — no entry is deleted. -/
theorem access_csrf_mismatch_keeps_session
    (a : AuthyConf) (P : String) (pc : ProviderConf) (sess : Session) (r : Req)
    (S : String) (exchange : Except Unit OAuth2Token)
    (hp : a.getProvider P = some pc)
    (hv : pc.oauthVersion = 2)
    (hS : sessGet sess ("authy." ++ P ++ ".state") = some (.str S))
    (hne : r.state ≠ S) :
    Access a P sess r exchange = .err .csrfMismatch sess := by
  simp [Access, hp, hv, hS, hne]

/-- Witness for C3: with state `"S1"` stored for provider `"gh"`, a request
carrying `state=WRONG` fails `csrfMismatch` and the session still holds both
entries. -/
theorem access_csrf_mismatch_keeps_session_witness :
    Access { callback := "/done", providers := [("gh", {})] } "gh"
        [("authy.gh.state", .str "S1"), ("authy.S1.scope", .str "repo")]
        { state := "WRONG", code := "c" } (.ok { AccessToken := "at", TokenType := "b" })
      = .err .csrfMismatch
          [("authy.gh.state", .str "S1"), ("authy.S1.scope", .str "repo")] :=
  access_csrf_mismatch_keeps_session _ _ {} _ _ "S1" _ (by decide) rfl (by decide) (by decide)

/-- C4: every `Access` call that returns successfully has deleted the
provider's state entry and the state's scope entry from the session, and a
second `Access` call replaying the same request against the resulting session
fails with the missing-CSRF-state error. -/
theorem access_success_deletes_state_and_blocks_replay
    (a : AuthyConf) (P : String) (sess : Session) (r : Req) (S : String)
    (exchange : Except Unit OAuth2Token) (t : Token) (rd : String) (s' : Session)
    (hS : sessGet sess ("authy." ++ P ++ ".state") = some (.str S))
    (hok : Access a P sess r exchange = .ok t rd s') :
    sessGet s' ("authy." ++ P ++ ".state") = none
    ∧ sessGet s' ("authy." ++ S ++ ".scope") = none
    ∧ Access a P s' r exchange = .err .csrfStateMissing s' := by
  unfold Access at hok
  split at hok
  next => exact absurd hok (by simp)
  next pc heqp =>
    split at hok
    case isFalse => exact absurd hok (by simp)
    case isTrue hv2 =>
      split at hok
      next heqs => exact absurd hok (by simp)
      next heqs => exact absurd hok (by simp)
      next stateStr heqs =>
        rw [hS] at heqs
        injection heqs with heqs
        injection heqs with heqs
        subst heqs
        split at hok
        case isTrue => exact absurd hok (by simp)
        case isFalse hne =>
          split at hok
          next => exact absurd hok (by simp)
          next => exact absurd hok (by simp)
          next scopeStr heq2 =>
            split at hok
            case isTrue => exact absurd hok (by simp)
            case isFalse hcode =>
              split at hok
              next => exact absurd hok (by simp)
              next tok heqex =>
                simp only [AccessOutcome.ok.injEq] at hok
                obtain ⟨-, -, hs⟩ := hok
                subst hs
                refine ⟨?_, ?_, ?_⟩
                · simp [sessGet_sessDelete, stateKey_ne_scopeKey P S]
                · simp [sessGet_sessDelete]
                · simp [Access, heqp, hv2, sessGet_sessDelete, stateKey_ne_scopeKey P S]

/-- Witness for C4: a concrete successful `Access` (state `"S1"` stored and
matched, code present, exchange succeeding) ends with an empty session, both
entries gone, and replaying the same call fails `csrfStateMissing`. -/
theorem access_success_deletes_state_and_blocks_replay_witness :
    sessGet [] "authy.gh.state" = none
    ∧ sessGet [] "authy.S1.scope" = none
    ∧ Access { callback := "/done", providers := [("gh", {})] } "gh" []
        { state := "S1", code := "c" } (.ok { AccessToken := "at", TokenType := "b" })
      = .err .csrfStateMissing [] :=
  access_success_deletes_state_and_blocks_replay
    { callback := "/done", providers := [("gh", {})] } "gh"
    [("authy.gh.state", .str "S1"), ("authy.S1.scope", .str "repo")]
    { state := "S1", code := "c" } "S1" (.ok { AccessToken := "at", TokenType := "b" })
    { Version := 2, Provider := "gh", Value := "at", Scope := ["repo"], TokenType := "b" }
    "/done" [] (by decide) (by decide)

/-- C9: when the provider's state entry exists and matches the request's
`state` parameter but the corresponding scope entry is absent or holds a
non-string value, `Access` panics (unchecked `.(string)` type assertion)
instead of returning an error. -/
theorem access_panics_on_bad_scope_entry
    (a : AuthyConf) (P : String) (pc : ProviderConf) (sess : Session) (r : Req)
    (S : String) (exchange : Except Unit OAuth2Token)
    (hp : a.getProvider P = some pc)
    (hv : pc.oauthVersion = 2)
    (hS : sessGet sess ("authy." ++ P ++ ".state") = some (.str S))
    (hmatch : r.state = S)
    (hscope : sessGet sess ("authy." ++ S ++ ".scope") = none
      ∨ sessGet sess ("authy." ++ S ++ ".scope") = some .other) :
    Access a P sess r exchange = .panicked := by
  rcases hscope with h | h <;> simp [Access, hp, hv, hS, hmatch, h]

/-- Witness for C9: state `"S1"` stored for `"gh"` and matched by the request,
but no `authy.S1.scope` entry: `Access` panics. -/
theorem access_panics_on_bad_scope_entry_witness :
    Access { callback := "/done", providers := [("gh", {})] } "gh"
        [("authy.gh.state", .str "S1")] { state := "S1", code := "c" }
        (.ok { AccessToken := "at", TokenType := "b" })
      = .panicked :=
  access_panics_on_bad_scope_entry _ _ {} _ _ "S1" _ (by decide) rfl (by decide) rfl
    (Or.inl (by decide))

/-- C10: `Authorize` stores the requested scopes comma-joined and `Access`
recovers them by comma-splitting, so with an empty configured scope list and a
token response carrying no scope, the backfilled token scope is `[""]` — the
one-element list holding the empty string — never the empty list. -/
theorem authorize_access_empty_scope_backfills_singleton
    (a : AuthyConf) (P : String) (pc : ProviderConf) (state : String) (sess : Session)
    (r : Req) (tok : OAuth2Token)
    (hp : a.getProvider P = some pc)
    (hv : pc.oauthVersion = 2)
    (hscope : pc.scope = [])
    (hstate : r.state = state)
    (hcode : r.code ≠ "")
    (htok : tok.Scope = []) :
    (Access a P (authorizeSessionWrites P pc state sess) r (.ok tok)).scopeOf
      = some [""]
    ∧ ([""] : List String) ≠ [] := by
  have hPK := stateKey_ne_scopeKey P state
  have g1 : sessGet (authorizeSessionWrites P pc state sess) ("authy." ++ P ++ ".state")
      = some (.str state) := by
    simp [authorizeSessionWrites, sessGet_sessSet, hPK]
  have g2 : sessGet (authorizeSessionWrites P pc state sess)
      ("authy." ++ state ++ ".scope") = some (.str "") := by
    have hjoin : goJoin ([] : List String) "," = "" := rfl
    simp [authorizeSessionWrites, sessGet_sessSet, hscope, hjoin]
  have hsplit : goSplit "" "," = [""] := rfl
  refine ⟨?_, by simp⟩
  simp [Access, AccessOutcome.scopeOf, hp, hv, g1, g2, hstate, hcode, htok, hsplit,
    tokenFromOAuth2]

/-- Witness for C10: provider `"gh"` configured with no scopes, a matching
callback with a code, and an exchange result with no scope produce a token
whose scope is `[""]`. -/
theorem authorize_access_empty_scope_backfills_singleton_witness :
    (Access { callback := "/done", providers := [("gh", {})] } "gh"
        (authorizeSessionWrites "gh" {} "S1" [])
        { state := "S1", code := "c" }
        (.ok { AccessToken := "at", TokenType := "b" })).scopeOf = some [""]
    ∧ ([""] : List String) ≠ [] :=
  authorize_access_empty_scope_backfills_singleton
    { callback := "/done", providers := [("gh", {})] } "gh" {} "S1" []
    { state := "S1", code := "c" } { AccessToken := "at", TokenType := "b" }
    (by decide) rfl rfl rfl (by decide) rfl

/-- C8 (counterexample): for provider `github` (no subdomain), key `k1`,
scopes `["repo","user:email"]`, delimiter `" "` and empty CSRF state — here
with the callback derived from host `example.com` and path `/auth/github` —
the claimed substring `client_id=k1&response_type=code&scope=repo%20user%3Aemail`
does NOT occur in the built query: `url.Values.Encode` sorts `redirect_uri`
between `client_id` and `response_type`, and `url.QueryEscape` encodes the
space in the scope as `+`, not `%20`. -/
theorem authorizeURLQuery_literal_not_contained :
    ¬ List.IsInfix "client_id=k1&response_type=code&scope=repo%20user%3Aemail".data
        (authorizeURLQuery { key := "k1", scope := ["repo", "user:email"] }
          (genCallbackURL "example.com" "/auth/github" false)).data := by
  decide

/-- C8 (amended): under the same inputs the built query is exactly
`client_id=k1&redirect_uri=http%3A%2F%2Fexample.com%2Fauth%2Fgithub%2Fcallback&response_type=code&scope=repo+user%3Aemail`;
it contains `client_id=k1`, `response_type=code` and
`scope=repo+user%3Aemail` (the space `+`-encoded, the parameters separated by
the sorted-in `redirect_uri`), and no `state` key — the string `state` occurs
nowhere in it. -/
theorem authorizeURLQuery_contains_params_no_state :
    authorizeURLQuery { key := "k1", scope := ["repo", "user:email"] }
        (genCallbackURL "example.com" "/auth/github" false)
      = "client_id=k1&redirect_uri=http%3A%2F%2Fexample.com%2Fauth%2Fgithub%2Fcallback&response_type=code&scope=repo+user%3Aemail"
    ∧ List.IsInfix "client_id=k1&".data
        (authorizeURLQuery { key := "k1", scope := ["repo", "user:email"] }
          (genCallbackURL "example.com" "/auth/github" false)).data
    ∧ List.IsInfix "&response_type=code&".data
        (authorizeURLQuery { key := "k1", scope := ["repo", "user:email"] }
          (genCallbackURL "example.com" "/auth/github" false)).data
    ∧ List.IsInfix "&scope=repo+user%3Aemail".data
        (authorizeURLQuery { key := "k1", scope := ["repo", "user:email"] }
          (genCallbackURL "example.com" "/auth/github" false)).data
    ∧ ¬ List.IsInfix "state".data
        (authorizeURLQuery { key := "k1", scope := ["repo", "user:email"] }
          (genCallbackURL "example.com" "/auth/github" false)).data := by
  refine ⟨by decide, by decide, by decide, by decide, by decide⟩
